import Mathlib

/-!
# Verification of the Vite module runner

A shallow embedding of `src/packages/vite/src/module-runner/runner.ts`:
identity normalization, fetch/cache coordination (`cachedModule`), the
circular-import checks (`isCurcularModule`, `isCurcularImport`), the
single-flight request scheduler (`cachedRequest`), the export linker
(`exportAll`), the `import.meta.env` guard and the cache-clearing
operations, together with theorems settling the claimed properties.

JavaScript strings are embedded as `List Char` (`JSString`), JavaScript
`Map`/`Set` objects as association lists / duplicate-free lists, and the
module-record store as a total function from identity to record (the
store's `getByModuleId` creates an empty record on a miss, so a total
function with a default empty record is an exact model of lookups).
-/

/-- JavaScript strings, embedded as lists of characters. -/
abbrev JSString := List Char

/-- Embed a Lean string literal as a `JSString`. -/
def str (s : String) : JSString := s.data

/-- Association-list update used to model `Map.prototype.set`:
replaces the binding of `k` in place or appends a fresh one. -/
def jsMapSet {α : Type} : List (JSString × α) → JSString → α → List (JSString × α)
  | [], k, v => [(k, v)]
  | (k₀, v₀) :: rest, k, v =>
    if k₀ = k then (k, v) :: rest else (k₀, v₀) :: jsMapSet rest k v

/-- `Map.prototype.get`, as `List.lookup` over the association list. -/
def jsMapGet {α : Type} (m : List (JSString × α)) (k : JSString) : Option α :=
  List.lookup k m

/-- `Set.prototype.add`: appends the element unless already present
(JavaScript sets keep insertion order, which the importer traversal
iterates in). -/
def jsSetAdd (s : List JSString) (a : JSString) : List JSString :=
  if a ∈ s then s else s ++ [a]

theorem jsMapGet_jsMapSet_self {α : Type} (m : List (JSString × α)) (k : JSString) (v : α) :
    jsMapGet (jsMapSet m k v) k = some v := by
  induction m with
  | nil => simp [jsMapGet, jsMapSet]
  | cons kv rest ih =>
    obtain ⟨k₀, v₀⟩ := kv
    by_cases h : k₀ = k
    · simp [jsMapGet, jsMapSet, h]
    · have hkk : (k == k₀) = false := by simp [Ne.symm h]
      simp only [jsMapSet, if_neg h]
      simpa [jsMapGet, List.lookup, hkk] using ih

theorem jsMapGet_jsMapSet_ne {α : Type} (m : List (JSString × α)) (k q : JSString) (v : α)
    (h : q ≠ k) : jsMapGet (jsMapSet m k v) q = jsMapGet m q := by
  have hqk : (q == k) = false := by simp [h]
  induction m with
  | nil => simp [jsMapGet, jsMapSet, List.lookup, hqk]
  | cons kv rest ih =>
    obtain ⟨k₀, v₀⟩ := kv
    by_cases h₀ : k₀ = k
    · subst h₀
      simp [jsMapGet, jsMapSet, List.lookup, hqk]
    · simp only [jsMapSet, if_neg h₀]
      by_cases hq₀ : q = k₀
      · simp [jsMapGet, List.lookup, hq₀]
      · have hqq : (q == k₀) = false := by simp [hq₀]
        simpa [jsMapGet, List.lookup, hqq] using ih

/-! ## Identity Normalizer

`normalizeEntryUrl` is translated from the source.  Its two helpers live in
files of this repository that are not under `src/` (`shared/utils.ts` and
`module-runner/utils.ts`), so they are modelled from the spec. -/

/-- Modelled from the spec: `wrapId` (from `shared/utils.ts`, not included
under `src/`) wraps a specifier into the reserved virtual-module addressing
convention (`virtual:custom -> /@id/virtual:custom`); an already wrapped id
is kept as is. -/
def wrapId (id : JSString) : JSString :=
  if (str "/@id/").isPrefixOf id then id else str "/@id/" ++ id

/-- Modelled from the spec: `unwrapId` (from `shared/utils.ts`, not included
under `src/`) removes the virtual-module wrapping again, so both the
decorated and the canonical spelling of a url can index the same record. -/
def unwrapId (id : JSString) : JSString :=
  if (str "/@id/").isPrefixOf id then id.drop 5 else id

/-- Modelled from the spec: `normalizeAbsoluteUrl` (from
`module-runner/utils.ts`, not included under `src/`) rewrites a url against
the configured root directory: a url carrying the root (which ends in a
path separator) as a prefix is rewritten to the server-style absolute path,
keeping the leading separator; any other url is returned unchanged. -/
def normalizeAbsoluteUrl (url root : JSString) : JSString :=
  if root.isPrefixOf url then str "/" ++ url.drop root.length else url

/-- `ModuleRunner.normalizeEntryUrl` (runner.ts:130-140): a relative
specifier (leading `.`) is returned unchanged; otherwise the url is
normalized against the root and, unless the result is a server-style
absolute path (leading `/`), wrapped as a virtual module. -/
def normalizeEntryUrl (root url : JSString) : JSString :=
  if (str ".").isPrefixOf url then url
  else
    let u := normalizeAbsoluteUrl url root
    if (str "/").isPrefixOf u then u else wrapId u

/-! ## The `import.meta.env` guard -/

/-- The `get` trap of the runner's `envProxy` (runner.ts:54-60): every
property read through the proxy throws, naming the accessed key in the
message.  The embedding returns the thrown message as an `Except` error. -/
def envProxyGet (p : JSString) : Except JSString Int :=
  .error
    (str "[module runner] Dynamic access of \"import.meta.env\" is not supported. Please, use \"import.meta.env."
      ++ p ++ str "\" instead.")

/-- `true` when the embedded computation models a thrown exception. -/
def exceptThrows {ε α : Type} : Except ε α → Bool
  | .error _ => true
  | .ok _ => false

/-! ## Theorems for C8 and C9 -/

theorem normalizeAbsoluteUrl_of_no_root (url root : JSString)
    (h : root.isPrefixOf url = false) : normalizeAbsoluteUrl url root = url := by
  simp [normalizeAbsoluteUrl, h]

theorem wrapId_starts_slash (id : JSString) :
    (str "/").isPrefixOf (wrapId id) = true := by
  unfold wrapId
  by_cases h : (str "/@id/").isPrefixOf id = true
  · simp only [h, if_true]
    rw [ List.isPrefixOf_iff_prefix] at h ⊢
    exact List.IsPrefix.trans (by simp [str]) h
  · simp only [h]
    rw [ List.isPrefixOf_iff_prefix]
    have h1 : (str "/") <+: (str "/@id/") := by simp [str]
    exact h1.trans ⟨id, rfl⟩

theorem slash_not_dot (u : JSString) (h : (str "/").isPrefixOf u = true) :
    (str ".").isPrefixOf u = false := by
  rw [ List.isPrefixOf_iff_prefix] at h
  obtain ⟨t, rfl⟩ := h
  simp [str, List.isPrefixOf]

/-- C8 (counterexample): `normalizeEntryUrl` is *not* idempotent for every
specifier: with root `/root/`, the specifier `/root/root/a.js` normalizes to
`/root/a.js`, which a second application strips again to `/a.js`. -/
theorem normalizeEntryUrl_not_idempotent :
    normalizeEntryUrl (str "/root/") (normalizeEntryUrl (str "/root/") (str "/root/root/a.js"))
      ≠ normalizeEntryUrl (str "/root/") (str "/root/root/a.js") := by decide

/-- C8 (amended): `normalizeEntryUrl` is idempotent for every specifier
whose normalized form does not itself carry the root as a prefix again
(relative specifiers are returned unchanged; server-style absolute results
are kept; anything else is wrapped into the virtual-module convention,
whose wrapped form normalizes to itself). -/
theorem normalizeEntryUrl_idempotent (root url : JSString)
    (h : (root.isPrefixOf (normalizeEntryUrl root url)) = false) :
    normalizeEntryUrl root (normalizeEntryUrl root url) = normalizeEntryUrl root url := by
  unfold normalizeEntryUrl at *
  by_cases hdot : (str ".").isPrefixOf url = true
  · simp [hdot]
  · simp only [hdot, if_false, Bool.false_eq_true] at h ⊢
    by_cases hslash : (str "/").isPrefixOf (normalizeAbsoluteUrl url root) = true
    · simp only [hslash, if_true] at h ⊢
      rw [slash_not_dot _ hslash]
      simp [normalizeAbsoluteUrl_of_no_root _ _ h, hslash]
    · simp only [hslash, if_false, Bool.false_eq_true] at h ⊢
      have hw := wrapId_starts_slash (normalizeAbsoluteUrl url root)
      rw [slash_not_dot _ hw]
      simp [normalizeAbsoluteUrl_of_no_root _ _ h, hw]

/-- C8 witness: the virtual-module specifier `virtual:custom` satisfies the
amended hypothesis and its normalization is a fixed point. -/
theorem normalizeEntryUrl_idempotent_witness :
    ((str "/root/").isPrefixOf (normalizeEntryUrl (str "/root/") (str "virtual:custom"))) = false
      ∧ normalizeEntryUrl (str "/root/") (normalizeEntryUrl (str "/root/") (str "virtual:custom"))
          = normalizeEntryUrl (str "/root/") (str "virtual:custom") :=
  ⟨by decide, normalizeEntryUrl_idempotent (str "/root/") (str "virtual:custom") (by decide)⟩

/-- C9 (counterexample): reading the literal key `PROD` through the
runner's env object does *not* succeed — the proxy's `get` trap throws on
every property access, literal or dynamic alike. -/
theorem envProxy_literal_access_throws :
    exceptThrows (envProxyGet (str "PROD")) = true := by decide

/-- C9 (amended): every property access through the runner's env object
fails with the Restricted-Access error naming the accessed key; literal
accesses avoid the failure only by being rewritten before execution,
outside this runtime. -/
theorem envProxy_every_access_throws (p : JSString) :
    envProxyGet p =
      .error
        (str "[module runner] Dynamic access of \"import.meta.env\" is not supported. Please, use \"import.meta.env."
          ++ p ++ str "\" instead.") := rfl

/-! ## Export Graph Linker (`exportAll`, runner.ts:416-439)

JavaScript object identities are modelled as numeric `oid`s; a live
accessor installed by `Object.defineProperty(exports, key, { get: () =>
sourceModule[key] })` is modelled as the pair `(key, source oid)`, read
back under the property values current at read time. -/

inductive JSObjKind where
  | plain
  | array
  | promise
deriving DecidableEq, Repr

/-- A source object handed to `exportAll`: its identity, its kind and its
enumerable keys in `for..in` iteration order. -/
structure SourceObj where
  oid : Nat
  kind : JSObjKind
  keys : List JSString
deriving DecidableEq, Repr

/-- A JavaScript value handed to `exportAll` as the source module:
a primitive or an object reference. -/
inductive JSRef where
  | prim (v : Int)
  | obj (o : SourceObj)
deriving DecidableEq, Repr

/-- The module namespace (`exports`) object: its identity, the keys on
which `Object.defineProperty` throws (pre-existing non-configurable
properties), and the live accessors installed so far. -/
structure ExportsObj where
  oid : Nat
  frozen : List JSString := []
  accessors : List (JSString × Nat) := []
deriving DecidableEq, Repr

/-- One iteration of the `for..in` loop body of `exportAll`: keys `default`
and `__esModule` are left untouched; a key whose property cannot be defined
is skipped (the `catch` swallows the failure), not aborted on; any other
key gets a live accessor onto the source object. -/
def exportAllKey (srcOid : Nat) (ex : ExportsObj) (key : JSString) : ExportsObj :=
  if key ≠ str "default" ∧ key ≠ str "__esModule" then
    if key ∈ ex.frozen then ex
    else { ex with accessors := jsMapSet ex.accessors key srcOid }
  else ex

/-- `exportAll(exports, sourceModule)` (runner.ts:416-439).  The source
checks `exports === sourceModule` first and then the primitive / array /
`Promise` guards; for a primitive source the identity check is always
false, so matching on the primitive case first is equivalent. -/
def exportAll (exports : ExportsObj) (sourceModule : JSRef) : ExportsObj :=
  match sourceModule with
  | .prim _ => exports
  | .obj src =>
    if exports.oid = src.oid then exports
    else if src.kind = .array ∨ src.kind = .promise then exports
    else src.keys.foldl (exportAllKey src.oid) exports

/-- Read `target[key]` with the property values current at read time
(`heap oid key` is the present value of that object's property): a live
accessor evaluates `sourceModule[key]` when read, not when installed. -/
def readExport (heap : Nat → JSString → Int) (ex : ExportsObj) (key : JSString) : Option Int :=
  (jsMapGet ex.accessors key).map fun oid => heap oid key

theorem exportAllKey_frozen (srcOid : Nat) (ex : ExportsObj) (key : JSString) :
    (exportAllKey srcOid ex key).frozen = ex.frozen := by
  unfold exportAllKey
  split <;> [skip; rfl]
  split <;> rfl

theorem exportAll_foldl_frozen (srcOid : Nat) (keys : List JSString) (ex : ExportsObj) :
    (keys.foldl (exportAllKey srcOid) ex).frozen = ex.frozen := by
  induction keys generalizing ex with
  | nil => rfl
  | cons k rest ih => simpa [List.foldl_cons, exportAllKey_frozen] using ih (exportAllKey srcOid ex k)

theorem exportAll_foldl_untouched (srcOid : Nat) (keys : List JSString) (ex : ExportsObj)
    (key : JSString)
    (hk : key = str "default" ∨ key = str "__esModule" ∨ key ∈ ex.frozen) :
    jsMapGet (keys.foldl (exportAllKey srcOid) ex).accessors key = jsMapGet ex.accessors key := by
  induction keys generalizing ex with
  | nil => rfl
  | cons k rest ih =>
    rw [List.foldl_cons]
    rw [ih (exportAllKey srcOid ex k) (by rwa [exportAllKey_frozen])]
    unfold exportAllKey
    split
    · rename_i hcond
      split
      · rfl
      · rename_i hnf
        have hne : key ≠ k := by
          rcases hk with h | h | h
          · exact fun he => hcond.1 (he ▸ h)
          · exact fun he => hcond.2 (he ▸ h)
          · exact fun he => hnf (he ▸ h)
        exact jsMapGet_jsMapSet_ne _ _ _ _ hne
    · rfl

theorem exportAll_foldl_absent (srcOid : Nat) (keys : List JSString) (ex : ExportsObj)
    (key : JSString) (hk : key ∉ keys) :
    jsMapGet (keys.foldl (exportAllKey srcOid) ex).accessors key = jsMapGet ex.accessors key := by
  induction keys generalizing ex with
  | nil => rfl
  | cons k rest ih =>
    rw [List.foldl_cons, ih _ (fun h => hk (List.mem_cons_of_mem _ h))]
    unfold exportAllKey
    split
    · split
      · rfl
      · exact jsMapGet_jsMapSet_ne _ _ _ _ (fun he => hk (he ▸ List.mem_cons_self k rest))
    · rfl

theorem exportAll_foldl_live (srcOid : Nat) (keys : List JSString) (ex : ExportsObj)
    (key : JSString) (hk : key ∈ keys) (hd : key ≠ str "default")
    (he : key ≠ str "__esModule") (hf : key ∉ ex.frozen) :
    jsMapGet (keys.foldl (exportAllKey srcOid) ex).accessors key = some srcOid := by
  induction keys generalizing ex with
  | nil => cases hk
  | cons k rest ih =>
    rw [List.foldl_cons]
    by_cases hrest : key ∈ rest
    · exact ih _ hrest (by rwa [exportAllKey_frozen])
    · have hkey : key = k := by
        rcases List.mem_cons.mp hk with h | h
        · exact h
        · exact absurd h hrest
      subst hkey
      rw [exportAll_foldl_absent _ _ _ _ hrest]
      unfold exportAllKey
      rw [if_pos ⟨hd, he⟩, if_neg hf]
      exact jsMapGet_jsMapSet_self _ _ _

/-- C7: `exportAll(target, source)` copies every enumerable key of the
source except `default` and `__esModule` onto the target as a live accessor
whose read always reflects the source's current value, skipping (without
aborting) keys whose property cannot be defined, and it is a no-op when
the source is the target itself, a primitive, an array, or a Promise. -/
theorem exportAll_spec (ex : ExportsObj) (src : SourceObj) (v : Int) :
    (ex.oid ≠ src.oid → src.kind = .plain →
      (∀ key ∈ src.keys, key ≠ str "default" → key ≠ str "__esModule" → key ∉ ex.frozen →
        ∀ heap : Nat → JSString → Int,
          readExport heap (exportAll ex (.obj src)) key = some (heap src.oid key))
      ∧ jsMapGet (exportAll ex (.obj src)).accessors (str "default")
          = jsMapGet ex.accessors (str "default")
      ∧ jsMapGet (exportAll ex (.obj src)).accessors (str "__esModule")
          = jsMapGet ex.accessors (str "__esModule")
      ∧ ∀ key ∈ ex.frozen,
          jsMapGet (exportAll ex (.obj src)).accessors key = jsMapGet ex.accessors key)
    ∧ exportAll ex (.prim v) = ex
    ∧ (src.kind = .array ∨ src.kind = .promise → exportAll ex (.obj src) = ex)
    ∧ (ex.oid = src.oid → exportAll ex (.obj src) = ex) := by
  refine ⟨fun hoid hkind => ?_, rfl, fun hk => ?_, fun ho => ?_⟩
  · have hred : exportAll ex (.obj src) = src.keys.foldl (exportAllKey src.oid) ex := by
      show (if ex.oid = src.oid then ex
        else if src.kind = JSObjKind.array ∨ src.kind = JSObjKind.promise then ex
        else src.keys.foldl (exportAllKey src.oid) ex) = src.keys.foldl (exportAllKey src.oid) ex
      rw [if_neg hoid, if_neg (by simp [hkind])]
    refine ⟨fun key hmem hd he hf => ?_, ?_, ?_, fun key hfz => ?_⟩
    · intro heap
      rw [readExport, hred, exportAll_foldl_live _ _ _ _ hmem hd he hf]
      rfl
    · rw [hred]
      exact exportAll_foldl_untouched _ _ _ _ (Or.inl rfl)
    · rw [hred]
      exact exportAll_foldl_untouched _ _ _ _ (Or.inr (Or.inl rfl))
    · rw [hred]
      exact exportAll_foldl_untouched _ _ _ _ (Or.inr (Or.inr hfz))
  · show (if ex.oid = src.oid then ex
      else if src.kind = JSObjKind.array ∨ src.kind = JSObjKind.promise then ex
      else src.keys.foldl (exportAllKey src.oid) ex) = ex
    by_cases ho : ex.oid = src.oid
    · rw [if_pos ho]
    · rw [if_neg ho, if_pos (by rcases hk with h | h <;> simp [h])]
  · show (if ex.oid = src.oid then ex
      else if src.kind = JSObjKind.array ∨ src.kind = JSObjKind.promise then ex
      else src.keys.foldl (exportAllKey src.oid) ex) = ex
    rw [if_pos ho]

/-- C7 witness: for the namespace with identity `0` and the source
`{a:1, b:2, default:99, __esModule:true}` with identity `1`, `a` becomes a
live accessor (its read under a concrete heap yields that heap's current
value of the source's `a`), while `default` and `__esModule` stay
untouched. -/
theorem exportAll_spec_witness :
    readExport (fun oid key => if oid = 1 ∧ key = str "a" then 5 else 7)
        (exportAll ⟨0, [], []⟩ (.obj ⟨1, .plain, [str "a", str "b", str "default", str "__esModule"]⟩))
        (str "a") = some 5
      ∧ jsMapGet (exportAll ⟨0, [], []⟩
          (.obj ⟨1, .plain, [str "a", str "b", str "default", str "__esModule"]⟩)).accessors
          (str "default") = none := by
  have h := exportAll_spec ⟨0, [], []⟩
    ⟨1, .plain, [str "a", str "b", str "default", str "__esModule"]⟩ 0
  have h1 := (h.1 (by decide) rfl).1 (str "a") (by decide) (by decide) (by decide)
    (by decide) (fun oid key => if oid = 1 ∧ key = str "a" then 5 else 7)
  have h2 := (h.1 (by decide) rfl).2.1
  refine ⟨?_, ?_⟩
  · rw [h1]
    decide
  · rw [h2]
    rfl

/-! ## Module records, the circular-import checks and the request scheduler

Execution futures (`promise`) and exports objects are identified by
numeric ids; a record's store key is `meta.id` whenever `meta` is present
(`cachedModule` stores every record it populates under the identity it
writes into `meta.id`), so object identity of records coincides with the
store key. -/

/-- The fetch result stored as a record's `meta` (`ResolvedResult`): an
externalized or an inline module, each carrying the assigned module
identity.  The transient `invalidate` flag is consumed inside
`cachedModule` and never read back from a stored meta. -/
inductive ModuleMeta where
  | externalize (target : JSString) (type : JSString) (id : JSString)
  | inline (code : Option JSString) (file : Option JSString) (id : JSString)
deriving DecidableEq, Repr

/-- The `id` field both variants of the fetch result carry. -/
def ModuleMeta.id : ModuleMeta → JSString
  | .externalize _ _ i => i
  | .inline _ _ i => i

/-- The optional `file` field (absent on externalized results). -/
def ModuleMeta.file : ModuleMeta → Option JSString
  | .externalize _ _ _ => none
  | .inline _ f _ => f

/-- One module record (`ModuleCache` in `types.ts`). -/
structure ModuleCache where
  meta : Option ModuleMeta := none
  promise : Option Nat := none
  evaluated : Bool := false
  exports : Option Nat := none
  imports : List JSString := []
  importers : List JSString := []
deriving DecidableEq, Repr

/-- The module record store: `getByModuleId` creates an empty record on a
miss, so lookups are a total function defaulting to the empty record. -/
def ModuleCacheMap : Type := JSString → ModuleCache

/-- Store a record under its identity. -/
def ModuleCacheMap.set (m : ModuleCacheMap) (k : JSString) (v : ModuleCache) : ModuleCacheMap :=
  fun q => if q = k then v else m q

theorem ModuleCacheMap.set_self (m : ModuleCacheMap) (k : JSString) (v : ModuleCache) :
    m.set k v k = v := by
  simp [ModuleCacheMap.set]

/-- `isCurcularModule` (runner.ts:156-163) [sic]: the record both imports
and is imported by the same neighbor. -/
def isCurcularModule (mod : ModuleCache) : Bool :=
  mod.imports.any fun importedFile => mod.importers.contains importedFile

/-- `isCurcularImport` (runner.ts:165-181), embedded with explicit fuel:
the source is an *unguarded* depth-first recursion over the importer edge
sets (it tracks no visited nodes), so the embedding charges one unit of
fuel per evaluation step.  `none` means the run did not finish within the
given fuel; a run that yields `none` at every fuel is a non-terminating
(stack-overflowing) run of the source. -/
def isCurcularImportF (cache : ModuleCacheMap) (moduleId : JSString) :
    Nat → List JSString → Option Bool
  | 0, _ => none
  | _ + 1, [] => some false
  | fuel + 1, importer :: rest =>
    if importer = moduleId then some true
    else
      match (if (cache importer).importers.isEmpty then some false
             else isCurcularImportF cache moduleId fuel (cache importer).importers) with
      | none => none
      | some true => some true
      | some false => isCurcularImportF cache moduleId fuel rest

/-- The importer-edge registration at the top of `cachedRequest`
(runner.ts:195-197): the immediate caller — the last callstack entry — is
added to the record's `importers` set, before any cycle check runs. -/
def requestWithImportee (mod : ModuleCache) (callstack : List JSString) : ModuleCache :=
  match callstack.getLast? with
  | some importee => { mod with importers := jsSetAdd mod.importers importee }
  | none => mod

/-- The three cycle checks of `cachedRequest` (runner.ts:200-204), in
source order with JavaScript short-circuit evaluation; only the transitive
importer search is fuelled. -/
def cycleDetected (cache : ModuleCacheMap) (mod : ModuleCache) (moduleId : JSString)
    (callstack : List JSString) (fuel : Nat) : Option Bool :=
  if callstack.contains moduleId then some true
  else if isCurcularModule mod then some true
  else isCurcularImportF cache moduleId fuel mod.importers

/-- The observable outcome of the synchronous prefix of one
`cachedRequest` call: the cycle path returned the record's existing
exports object; the request joined the execution future already stored on
the record; or it created the future via `directRequest` and stored it on
the record.  `processImport` returns the very exports object it is given,
so outcomes carry object identities directly. -/
inductive RequestOutcome where
  | cachedExports (e : Nat)
  | joinedExisting (p : Nat)
  | startedExecution (p : Nat)
deriving DecidableEq, Repr

/-- The synchronous prefix of `cachedRequest` (runner.ts:183-236) on the
record stored at `modKey` (its `meta.id` in normal operation): register
the immediate caller as importer, run the cycle checks, then either
return the existing exports, join the stored future, or store a fresh
future (identified by `freshPid`) on the record — all before the first
`await`.  `none` models a run the source cannot complete: a record
without `meta` (reading `meta.id` would fail) or a cycle search that
exceeds its fuel (the source recurses without bound). -/
def cachedRequestStep (cache : ModuleCacheMap) (modKey : JSString)
    (callstack : List JSString) (fuel freshPid : Nat) :
    Option (RequestOutcome × ModuleCacheMap) :=
  match (cache modKey).meta with
  | none => none
  | some meta =>
    let mod1 := requestWithImportee (cache modKey) callstack
    let cache1 := cache.set modKey mod1
    match cycleDetected cache1 mod1 meta.id callstack fuel with
    | none => none
    | some cyc =>
      match cyc, mod1.exports with
      | true, some e => some (.cachedExports e, cache1)
      | _, _ =>
        match mod1.promise with
        | some p => some (.joinedExisting p, cache1)
        | none =>
          some (.startedExecution freshPid,
            cache1.set modKey { mod1 with promise := some freshPid, evaluated := false })

/-- Outcome projection of `cachedRequestStep` (a decidable view). -/
def cachedRequestStepOutcome (cache : ModuleCacheMap) (modKey : JSString)
    (callstack : List JSString) (fuel freshPid : Nat) : Option RequestOutcome :=
  (cachedRequestStep cache modKey callstack fuel freshPid).map fun r => r.1

/-- Post-state record projection of `cachedRequestStep` at key `k`
(a decidable view). -/
def cachedRequestStepRecord (cache : ModuleCacheMap) (modKey : JSString)
    (callstack : List JSString) (fuel freshPid : Nat) (k : JSString) : Option ModuleCache :=
  (cachedRequestStep cache modKey callstack fuel freshPid).map fun r => r.2 k

/-- One queued concurrent request for the same record: its callstack, the
fuel for its cycle search, and the id `directRequest` would assign to the
future were this request to create one. -/
structure QueuedRequest where
  callstack : List JSString
  fuel : Nat
  pid : Nat
deriving DecidableEq, Repr

/-- Sequential interleaving of the synchronous prefixes of several
`cachedRequest` calls for one record: the cooperative scheduler runs each
prefix atomically, since every record mutation happens before the first
`await` of its operation (spec section 5). -/
def runRequests (modKey : JSString) : ModuleCacheMap → List QueuedRequest →
    Option (List RequestOutcome × ModuleCacheMap)
  | cache, [] => some ([], cache)
  | cache, q :: rest =>
    match cachedRequestStep cache modKey q.callstack q.fuel q.pid with
    | none => none
    | some (o, cache1) =>
      match runRequests modKey cache1 rest with
      | none => none
      | some (os, cf) => some (o :: os, cf)

/-- Outcome projection of `runRequests` (a decidable view). -/
def runRequestsOutcomes (modKey : JSString) (cache : ModuleCacheMap)
    (reqs : List QueuedRequest) : Option (List RequestOutcome) :=
  (runRequests modKey cache reqs).map fun r => r.1

/-- The importer graph left behind after modules `A` and `B` have imported
each other (both cycle edges are persisted by `cachedRequest` and
`directRequest`) and one of them has then requested a third module `M`. -/
def cycleImporterCache : ModuleCacheMap := fun k =>
  if k = str "A" then { importers := [str "B"], imports := [str "B", str "M"] }
  else if k = str "B" then { importers := [str "A"], imports := [str "A"] }
  else if k = str "M" then { importers := [str "A"] }
  else {}

theorem isCurcularImport_cycleAB_diverges_aux : ∀ fuel : Nat,
    isCurcularImportF cycleImporterCache (str "M") fuel [str "A"] = none
      ∧ isCurcularImportF cycleImporterCache (str "M") fuel [str "B"] = none := by
  intro fuel
  induction fuel with
  | zero => exact ⟨rfl, rfl⟩
  | succ n ih =>
    have hA : (cycleImporterCache (str "A")).importers = [str "B"] := by decide
    have hB : (cycleImporterCache (str "B")).importers = [str "A"] := by decide
    have hAM : ¬(str "A" = str "M") := by decide
    have hBM : ¬(str "B" = str "M") := by decide
    refine ⟨?_, ?_⟩
    · simp [isCurcularImportF, hA, hAM, ih.2]
    · simp [isCurcularImportF, hB, hBM, ih.1]

/-- C5: the transitive importer search does *not* terminate for every
module-graph state.  `isCurcularImport` tracks no visited nodes, so on a
materialized two-module importer cycle (`A` and `B` import each other) the
search for a third module identity `M` recurses without bound: its fuelled
embedding returns `none` — fuel exhausted — at *every* fuel.  In the
source this is unbounded recursion (a stack overflow), contradicting the
spec's requirement that the traversal be recursion-guarded. -/
theorem isCurcularImport_unbounded_recursion : ∀ fuel : Nat,
    isCurcularImportF cycleImporterCache (str "M") fuel [str "A"] = none :=
  fun fuel => (isCurcularImport_cycleAB_diverges_aux fuel).1

theorem requestWithImportee_promise (mod : ModuleCache) (cs : List JSString) :
    (requestWithImportee mod cs).promise = mod.promise := by
  unfold requestWithImportee
  cases cs.getLast? <;> rfl

theorem requestWithImportee_exports (mod : ModuleCache) (cs : List JSString) :
    (requestWithImportee mod cs).exports = mod.exports := by
  unfold requestWithImportee
  cases cs.getLast? <;> rfl

theorem cachedRequestStep_join (cache : ModuleCacheMap) (modKey : JSString)
    (callstack : List JSString) (fuel pid p : Nat) (o : RequestOutcome) (c' : ModuleCacheMap)
    (hp : (cache modKey).promise = some p) (he : (cache modKey).exports = none)
    (h : cachedRequestStep cache modKey callstack fuel pid = some (o, c')) :
    o = .joinedExisting p ∧ (c' modKey).promise = some p ∧ (c' modKey).exports = none := by
  unfold cachedRequestStep at h
  cases hm : (cache modKey).meta with
  | none => rw [hm] at h; exact absurd h (by simp)
  | some meta =>
    rw [hm] at h
    simp only at h
    have hmp : (requestWithImportee (cache modKey) callstack).promise = some p := by
      rw [requestWithImportee_promise]; exact hp
    have hme : (requestWithImportee (cache modKey) callstack).exports = none := by
      rw [requestWithImportee_exports]; exact he
    cases hcyc : cycleDetected (cache.set modKey (requestWithImportee (cache modKey) callstack))
        (requestWithImportee (cache modKey) callstack) meta.id callstack fuel with
    | none => rw [hcyc] at h; exact absurd h (by simp)
    | some cyc =>
      rw [hcyc] at h
      rw [hme, hmp] at h
      cases cyc <;>
        simp only [Option.some.injEq, Prod.mk.injEq] at h <;>
        obtain ⟨ho, hc⟩ := h <;> subst ho <;> subst hc <;>
        exact ⟨rfl, by rw [ModuleCacheMap.set_self]; exact hmp,
          by rw [ModuleCacheMap.set_self]; exact hme⟩

theorem cachedRequestStep_start (cache : ModuleCacheMap) (modKey : JSString)
    (callstack : List JSString) (fuel pid : Nat) (o : RequestOutcome) (c' : ModuleCacheMap)
    (hp : (cache modKey).promise = none) (he : (cache modKey).exports = none)
    (h : cachedRequestStep cache modKey callstack fuel pid = some (o, c')) :
    o = .startedExecution pid ∧ (c' modKey).promise = some pid ∧ (c' modKey).exports = none := by
  unfold cachedRequestStep at h
  cases hm : (cache modKey).meta with
  | none => rw [hm] at h; exact absurd h (by simp)
  | some meta =>
    rw [hm] at h
    simp only at h
    have hmp : (requestWithImportee (cache modKey) callstack).promise = none := by
      rw [requestWithImportee_promise]; exact hp
    have hme : (requestWithImportee (cache modKey) callstack).exports = none := by
      rw [requestWithImportee_exports]; exact he
    cases hcyc : cycleDetected (cache.set modKey (requestWithImportee (cache modKey) callstack))
        (requestWithImportee (cache modKey) callstack) meta.id callstack fuel with
    | none => rw [hcyc] at h; exact absurd h (by simp)
    | some cyc =>
      rw [hcyc] at h
      rw [hme, hmp] at h
      cases cyc <;>
        simp only [Option.some.injEq, Prod.mk.injEq] at h <;>
        obtain ⟨ho, hc⟩ := h <;> subst ho <;> subst hc <;>
        exact ⟨rfl, by rw [ModuleCacheMap.set_self], by rw [ModuleCacheMap.set_self]⟩

theorem runRequests_join_all (modKey : JSString) (p : Nat) :
    ∀ (reqs : List QueuedRequest) (cache : ModuleCacheMap) (os : List RequestOutcome)
      (cf : ModuleCacheMap),
    (cache modKey).promise = some p → (cache modKey).exports = none →
    runRequests modKey cache reqs = some (os, cf) →
    ∀ o ∈ os, o = .joinedExisting p := by
  intro reqs
  induction reqs with
  | nil =>
    intro cache os cf hp he h
    simp only [runRequests, Option.some.injEq, Prod.mk.injEq] at h
    obtain ⟨hos, -⟩ := h
    subst hos
    intro o hmem
    cases hmem
  | cons q rest ih =>
    intro cache os cf hp he h
    unfold runRequests at h
    cases hs : cachedRequestStep cache modKey q.callstack q.fuel q.pid with
    | none => rw [hs] at h; exact absurd h (by simp)
    | some r =>
      obtain ⟨o₁, c₁⟩ := r
      rw [hs] at h
      dsimp only at h
      obtain ⟨ho₁, hc₁p, hc₁e⟩ := cachedRequestStep_join _ _ _ _ _ _ _ _ hp he hs
      cases hr : runRequests modKey c₁ rest with
      | none => rw [hr] at h; exact absurd h (by simp)
      | some r₁ =>
        obtain ⟨os₁, cf₁⟩ := r₁
        rw [hr] at h
        simp only [Option.some.injEq, Prod.mk.injEq] at h
        obtain ⟨hos, -⟩ := h
        subst hos
        intro o hmem
        rcases List.mem_cons.mp hmem with rfl | hmem₁
        · exact ho₁
        · exact ih c₁ os₁ cf₁ hc₁p hc₁e hr o hmem₁

/-- C1: single-flight execution.  Starting from a record that is
unresolved (no execution future, no exports yet), any sequence of
`cachedRequest` prefixes for that record — the interleaving of N
concurrent requests, each prefix atomic because every record mutation
happens before its first `await` — creates exactly one execution future:
the first request stores the future it creates on the record before
awaiting it, and every later request finds that stored future and joins
it instead of invoking `directRequest` again. -/
theorem cachedRequest_single_flight (modKey : JSString) (cache : ModuleCacheMap)
    (q : QueuedRequest) (reqs : List QueuedRequest) (os : List RequestOutcome)
    (h : runRequestsOutcomes modKey cache (q :: reqs) = some os)
    (hp : (cache modKey).promise = none) (he : (cache modKey).exports = none) :
    ∃ os', os = RequestOutcome.startedExecution q.pid :: os'
      ∧ ∀ o ∈ os', o = RequestOutcome.joinedExisting q.pid := by
  unfold runRequestsOutcomes at h
  cases hrun : runRequests modKey cache (q :: reqs) with
  | none => rw [hrun] at h; exact absurd h (by simp)
  | some r =>
    obtain ⟨os₀, cf⟩ := r
    rw [hrun] at h
    simp only [Option.map, Option.some.injEq] at h
    unfold runRequests at hrun
    cases hs : cachedRequestStep cache modKey q.callstack q.fuel q.pid with
    | none => rw [hs] at hrun; exact absurd hrun (by simp)
    | some r₁ =>
      obtain ⟨o₁, c₁⟩ := r₁
      rw [hs] at hrun
      dsimp only at hrun
      obtain ⟨ho₁, hc₁p, hc₁e⟩ := cachedRequestStep_start _ _ _ _ _ _ _ hp he hs
      cases hr : runRequests modKey c₁ reqs with
      | none => rw [hr] at hrun; exact absurd hrun (by simp)
      | some r₂ =>
        obtain ⟨os₁, cf₁⟩ := r₂
        rw [hr] at hrun
        simp only [Option.some.injEq, Prod.mk.injEq] at hrun
        obtain ⟨hos, -⟩ := hrun
        refine ⟨os₁, ?_, ?_⟩
        · rw [← h, ← hos, ho₁]
        · exact runRequests_join_all modKey q.pid reqs c₁ os₁ cf₁ hc₁p hc₁e hr

/-- The unresolved record for `/main.js`, as `cachedModule` leaves it
right after attaching `meta`. -/
def singleFlightCache : ModuleCacheMap := fun k =>
  if k = str "/main.js" then
    { meta := some (.inline (some (str "code")) (some (str "/main.js")) (str "/main.js")) }
  else {}

/-- C1 witness: two concurrent requests for the unresolved `/main.js`
record — the first starts execution future `7`, the second joins it. -/
theorem cachedRequest_single_flight_witness :
    runRequestsOutcomes (str "/main.js") singleFlightCache
        [⟨[], 1, 7⟩, ⟨[], 1, 8⟩]
      = some [RequestOutcome.startedExecution 7, RequestOutcome.joinedExisting 7]
      ∧ (singleFlightCache (str "/main.js")).promise = none
      ∧ (singleFlightCache (str "/main.js")).exports = none
      ∧ ∃ os', [RequestOutcome.startedExecution 7, RequestOutcome.joinedExisting 7]
            = RequestOutcome.startedExecution 7 :: os'
          ∧ ∀ o ∈ os', o = RequestOutcome.joinedExisting 7 :=
  ⟨by decide, by decide, by decide,
    cachedRequest_single_flight (str "/main.js") singleFlightCache ⟨[], 1, 7⟩ [⟨[], 1, 8⟩]
      [RequestOutcome.startedExecution 7, RequestOutcome.joinedExisting 7]
      (by decide) (by decide) (by decide)⟩

/-- C2: circular-import handling in `cachedRequest`.  When the cycle
checks (in source order: identity on the callstack, mutual two-node
cycle, transitive importer search) report a cycle, then (a) if the record
already has an exports object those exports are returned — through the
export-shape pass `processImport`, which returns the very same object —
without touching the stored future or starting a new execution, and
(b) if no exports exist yet the request falls through to the execution
path: it joins a stored future or starts execution, instead of failing
or waiting. -/
theorem cachedRequest_cycle_behavior (cache : ModuleCacheMap) (modKey : JSString)
    (callstack : List JSString) (fuel pid : Nat) (meta : ModuleMeta)
    (hm : (cache modKey).meta = some meta)
    (hcyc : cycleDetected (cache.set modKey (requestWithImportee (cache modKey) callstack))
        (requestWithImportee (cache modKey) callstack) meta.id callstack fuel = some true) :
    (∀ e, (cache modKey).exports = some e →
      cachedRequestStep cache modKey callstack fuel pid
        = some (RequestOutcome.cachedExports e,
            cache.set modKey (requestWithImportee (cache modKey) callstack)))
    ∧ ((cache modKey).exports = none →
      cachedRequestStep cache modKey callstack fuel pid
        = some (match (cache modKey).promise with
            | some p => (RequestOutcome.joinedExisting p,
                cache.set modKey (requestWithImportee (cache modKey) callstack))
            | none => (RequestOutcome.startedExecution pid,
                (cache.set modKey (requestWithImportee (cache modKey) callstack)).set modKey
                  { requestWithImportee (cache modKey) callstack with
                      promise := some pid, evaluated := false }))) := by
  have hexp := requestWithImportee_exports (cache modKey) callstack
  have hpro := requestWithImportee_promise (cache modKey) callstack
  constructor
  · intro e hee
    unfold cachedRequestStep
    rw [hm]
    dsimp only
    rw [hcyc]
    dsimp only
    rw [hexp, hee]
  · intro hee
    unfold cachedRequestStep
    rw [hm]
    dsimp only
    rw [hcyc]
    dsimp only
    rw [hexp, hee, hpro]
    cases (cache modKey).promise <;> rfl

/-- The record of a module `M` that is mid-execution (exports object `5`
already created, `meta` attached) and is requested again while `M` itself
is on the callstack. -/
def cycleExportsCache : ModuleCacheMap := fun k =>
  if k = str "M" then
    { meta := some (.inline (some (str "")) none (str "M")), exports := some 5 }
  else {}

/-- C2 witness: requesting `M` with `M` on the callstack (a detected
cycle) returns the existing exports object `5` without starting a new
execution. -/
theorem cachedRequest_cycle_behavior_witness :
    cachedRequestStepOutcome cycleExportsCache (str "M") [str "M"] 1 0
      = some (RequestOutcome.cachedExports 5) := by
  have h := (cachedRequest_cycle_behavior cycleExportsCache (str "M") [str "M"] 1 0
      (ModuleMeta.inline (some (str "")) none (str "M")) (by decide) (by decide)).1 5 (by decide)
  rw [cachedRequestStepOutcome, h]
  rfl

theorem jsSetAdd_mem (s : List JSString) (a : JSString) : a ∈ jsSetAdd s a := by
  unfold jsSetAdd
  by_cases h : a ∈ s
  · rwa [if_pos h]
  · rw [if_neg h]
    exact List.mem_append_right _ (List.mem_singleton.mpr rfl)

theorem cachedRequestStep_importers (cache : ModuleCacheMap) (modKey : JSString)
    (callstack : List JSString) (fuel pid : Nat) (o : RequestOutcome) (c' : ModuleCacheMap)
    (h : cachedRequestStep cache modKey callstack fuel pid = some (o, c')) :
    (c' modKey).importers = (requestWithImportee (cache modKey) callstack).importers := by
  unfold cachedRequestStep at h
  cases hm : (cache modKey).meta with
  | none => rw [hm] at h; exact absurd h (by simp)
  | some meta =>
    rw [hm] at h
    dsimp only at h
    cases hcyc : cycleDetected (cache.set modKey (requestWithImportee (cache modKey) callstack))
        (requestWithImportee (cache modKey) callstack) meta.id callstack fuel with
    | none => rw [hcyc] at h; exact absurd h (by simp)
    | some cyc =>
      rw [hcyc] at h
      dsimp only at h
      cases cyc <;>
        cases hex : (requestWithImportee (cache modKey) callstack).exports <;>
        rw [hex] at h <;>
        cases hpr : (requestWithImportee (cache modKey) callstack).promise <;>
        rw [hpr] at h <;>
        simp only [Option.some.injEq, Prod.mk.injEq] at h <;>
        obtain ⟨-, hc⟩ := h <;> subst hc <;>
        rw [ModuleCacheMap.set_self]

/-- C4 (counterexample): the importer edge is *not* withheld when a cycle
is detected.  Requesting `M` with `M` as the immediate caller is a
detected cycle (the outcome is the cycle path returning the cached
exports), yet the record's `importers` set — empty beforehand — has
gained the caller: `cachedRequest` adds the edge before the cycle checks
run. -/
theorem cachedRequest_importer_added_despite_cycle :
    (cycleExportsCache (str "M")).importers = []
      ∧ cachedRequestStepOutcome cycleExportsCache (str "M") [str "M"] 2 0
          = some (RequestOutcome.cachedExports 5)
      ∧ cachedRequestStepRecord cycleExportsCache (str "M") [str "M"] 2 0 (str "M")
          = some { meta := some (.inline (some (str "")) none (str "M")),
                   promise := none, evaluated := false, exports := some 5,
                   imports := [], importers := [str "M"] } := by decide

/-- C4 (amended): for every call to `cachedRequest` with a non-empty
callstack, the immediate caller (its last entry) is registered as an
importer of the current module *unconditionally*, before the cycle checks
run — in the cycle and no-cycle cases alike (the fresh edge itself
participates in cycle detection). -/
theorem cachedRequest_registers_importer (cache : ModuleCacheMap) (modKey : JSString)
    (callstack : List JSString) (fuel pid : Nat) (imp : JSString) (rec : ModuleCache)
    (himp : callstack.getLast? = some imp)
    (h : cachedRequestStepRecord cache modKey callstack fuel pid modKey = some rec) :
    imp ∈ rec.importers := by
  unfold cachedRequestStepRecord at h
  cases hs : cachedRequestStep cache modKey callstack fuel pid with
  | none => rw [hs] at h; exact absurd h (by simp)
  | some r =>
    obtain ⟨o, c'⟩ := r
    rw [hs] at h
    simp only [Option.map, Option.some.injEq] at h
    have himps := cachedRequestStep_importers _ _ _ _ _ _ _ hs
    rw [← h, himps]
    unfold requestWithImportee
    rw [himp]
    exact jsSetAdd_mem _ _

/-- The post-state of the cycle request of the counterexample: the record
of `M` with the importer edge `M` added. -/
def cycleRequestRecord : ModuleCache :=
  { meta := some (.inline (some (str "")) none (str "M")),
    promise := none, evaluated := false, exports := some 5,
    imports := [], importers := [str "M"] }

/-- C4 witness for the amended theorem: the concrete cycle request of the
counterexample indeed registers `M` as its own importer. -/
theorem cachedRequest_registers_importer_witness :
    ([str "M"] : List JSString).getLast? = some (str "M")
      ∧ str "M" ∈ cycleRequestRecord.importers :=
  ⟨rfl, cachedRequest_registers_importer cycleExportsCache (str "M") [str "M"] 2 0 (str "M")
    cycleRequestRecord rfl (by decide)⟩

/-! ## Runner state and the fetch coordinator (`cachedModule`) -/

/-- The transport's answer to `fetchModule`: a cache-hit marker (reuse the
existing record), an externalized module, or an inline module. -/
inductive TransportResponse where
  | cache
  | externalize (target : JSString) (type : JSString) (invalidate : Bool)
  | inline (code : Option JSString) (file : Option JSString) (invalidate : Bool)
deriving DecidableEq, Repr

/-- The optional `file` field of the response (`'file' in fetchedModule`):
only inline results carry one. -/
def TransportResponse.fileOf : TransportResponse → Option JSString
  | .inline _ f _ => f
  | _ => none

/-- The `invalidate` flag of the response. -/
def TransportResponse.invalidateFlag : TransportResponse → Bool
  | .externalize _ _ i => i
  | .inline _ _ i => i
  | .cache => false

/-- Attach the derived module identity (`fetchedModule.id = moduleId`,
runner.ts:290), yielding the stored `meta`. -/
def TransportResponse.toMeta : TransportResponse → JSString → Option ModuleMeta
  | .cache, _ => none
  | .externalize t ty _, moduleId => some (.externalize t ty moduleId)
  | .inline c f _, moduleId => some (.inline c f moduleId)

/-- Runner-owned state: the destruction flag, the module record store and
the two auxiliary indices, plus the HMR listener registry (listeners
identified by numeric ids; `hmrClient?.clear()` empties it). -/
structure RunnerState where
  root : JSString
  destroyed : Bool := false
  moduleCache : ModuleCacheMap := fun _ => {}
  urlToIdMap : List (JSString × JSString) := []
  fileToIdMap : List (JSString × List JSString) := []
  hmrListeners : List Nat := []

/-- `ModuleRunner.clearCache` (runner.ts:103-107): empties the module
record store and the URL index and clears the HMR listeners.  The
file-location index `fileToIdMap` is not touched. -/
def clearCache (s : RunnerState) : RunnerState :=
  { s with moduleCache := fun _ => {}, urlToIdMap := [], hmrListeners := [] }

/-- `ModuleRunner.destroy` (runner.ts:113-118): resets source-map support
(outside this model), clears all caches via `clearCache`, drops the HMR
client and marks the runner destroyed. -/
def destroy (s : RunnerState) : RunnerState :=
  { clearCache s with hmrListeners := [], destroyed := true }

/-- Modelled from the spec: `ModuleCacheMap.normalize` (`moduleCache.ts`,
not under `src/`) maps a file identity to the canonical record id; the
spec constrains it no further than being a deterministic
canonicalization, so it is modelled as the identity map. -/
def ModuleCacheMap.normalize (fileId : JSString) : JSString := fileId

/-- Modelled from the spec: `ModuleCacheMap.invalidateModule`
(`moduleCache.ts`, not under `src/`) resets the record — exports, promise
and evaluated flag cleared, edges cleared — before it is repopulated. -/
def ModuleCacheMap.invalidateModule (_mod : ModuleCache) : ModuleCache := {}

/-- The record `cachedModule` considers for the cache-hit decision
(runner.ts:250-254): the record under the URL index entry if one exists,
else the record stored under the url itself (`getByModuleId` always
returns a record, so only the index decides which key is used). -/
def cachedModuleLookup (s : RunnerState) (url : JSString) : ModuleCache :=
  match jsMapGet s.urlToIdMap url with
  | some normalized => s.moduleCache normalized
  | none => s.moduleCache url

/-- The query appended to the file identity (runner.ts:279-280):
`url.split('?')[1]`, re-prefixed with `?` unless absent or empty — i.e.
the segment of the url between its first and second `?`. -/
def querySuffix (url : JSString) : JSString :=
  match (url.splitOn '?').get? 1 with
  | some q => if q.isEmpty then [] else str "?" ++ q
  | none => []

/-- The transport interaction of `cachedModule` (runner.ts:256-265): a
`data:` url short-circuits to a synthetic builtin externalize result
without contacting the transport; any other url is fetched with the
cache-revalidation flag set when the looked-up record has `meta`. -/
def fetchedResponse (s : RunnerState) (url : JSString) (importer : Option JSString)
    (transport : JSString → Option JSString → Bool → TransportResponse) : TransportResponse :=
  if (str "data:").isPrefixOf url then .externalize url (str "builtin") false
  else transport url importer (cachedModuleLookup s url).meta.isSome

/-- `ModuleRunner.cachedModule` (runner.ts:238-302), with the transport as
an explicit function.  Returns the thrown message, or the updated state
together with the returned record. -/
def cachedModule (s : RunnerState) (url₀ : JSString) (importer : Option JSString)
    (transport : JSString → Option JSString → Bool → TransportResponse) :
    Except JSString (RunnerState × ModuleCache) :=
  if s.destroyed then
    .error (str "Vite module runner has been destroyed.")
  else
    let url := normalizeAbsoluteUrl url₀ s.root
    let cachedMod := cachedModuleLookup s url
    let fetched := fetchedResponse s url importer transport
    match fetched with
    | .cache =>
      if cachedMod.meta.isSome then .ok (s, cachedMod)
      else .error (str "Module \"" ++ url ++ str "\" was mistakenly invalidated during fetch phase.")
    | r =>
      let file := r.fileOf
      let fileId := match file with
        | some f => f ++ querySuffix url
        | none => url
      let moduleId := ModuleCacheMap.normalize fileId
      let mod0 := s.moduleCache moduleId
      let mod1 := if r.invalidateFlag then ModuleCacheMap.invalidateModule mod0 else mod0
      let mod2 := { mod1 with meta := r.toMeta moduleId }
      let s1 := { s with moduleCache := s.moduleCache.set moduleId mod2 }
      let s2 := match file with
        | some f =>
          { s1 with
            fileToIdMap := jsMapSet s1.fileToIdMap f
              (((jsMapGet s1.fileToIdMap f).getD []) ++ [moduleId]) }
        | none => s1
      let s3 :=
        { s2 with
          urlToIdMap := jsMapSet (jsMapSet s2.urlToIdMap url moduleId) (unwrapId url) moduleId }
      .ok (s3, mod2)

/-- The identity of the record `cachedModule` returns (a decidable view). -/
def cachedModuleId (s : RunnerState) (url : JSString) (importer : Option JSString)
    (transport : JSString → Option JSString → Bool → TransportResponse) : Option JSString :=
  match cachedModule s url importer transport with
  | .ok (_, m) => m.meta.map ModuleMeta.id
  | .error _ => none

/-- The per-file identity list of the post-state of `cachedModule` at
file `f` (a decidable view). -/
def cachedModuleFileIds (s : RunnerState) (url : JSString) (importer : Option JSString)
    (transport : JSString → Option JSString → Bool → TransportResponse) (f : JSString) :
    Option (Option (List JSString)) :=
  match cachedModule s url importer transport with
  | .ok (s', _) => some (jsMapGet s'.fileToIdMap f)
  | .error _ => none

/-- C6: resolution failure conditions.  `cachedModule` throws exactly when
the runner has been destroyed, or when the (non-`data:`) transport reports
a cache-hit while the looked-up record has no `meta` attached; and the
destruction check comes before any other work — a destroyed runner yields
the Destroyed-Runtime error whatever the transport would answer. -/
theorem cachedModule_throws_iff (s : RunnerState) (url : JSString) (importer : Option JSString)
    (transport : JSString → Option JSString → Bool → TransportResponse) :
    (exceptThrows (cachedModule s url importer transport) = true
      ↔ s.destroyed = true
        ∨ (fetchedResponse s (normalizeAbsoluteUrl url s.root) importer transport
              = TransportResponse.cache
            ∧ (cachedModuleLookup s (normalizeAbsoluteUrl url s.root)).meta = none))
    ∧ (s.destroyed = true →
        cachedModule s url importer transport
          = .error (str "Vite module runner has been destroyed.")) := by
  constructor
  · unfold cachedModule
    by_cases hd : s.destroyed
    · simp [hd, exceptThrows]
    · rw [if_neg hd]
      dsimp only
      cases hf : fetchedResponse s (normalizeAbsoluteUrl url s.root) importer transport with
      | cache =>
        cases hm : (cachedModuleLookup s (normalizeAbsoluteUrl url s.root)).meta with
        | none => simp [exceptThrows, hd, hm]
        | some m => simp [exceptThrows, hd, hm]
      | externalize t ty inv => simp [exceptThrows, hd]
      | inline c f0 inv => simp [exceptThrows, hd]
  · intro hd
    unfold cachedModule
    rw [if_pos hd]

/-- A runner already torn down by `destroy()`. -/
def destroyedRunner : RunnerState := { root := str "/root/", destroyed := true }

/-- A transport that resolves every url to the same file `/x.js`. -/
def sameFileTransport : JSString → Option JSString → Bool → TransportResponse :=
  fun _ _ _ => .inline (some []) (some (str "/x.js")) false

/-- C6 witness: an import on a destroyed runner rejects with the
Destroyed-Runtime error. -/
theorem cachedModule_throws_iff_witness :
    exceptThrows (cachedModule destroyedRunner (str "/a.js") none sameFileTransport) = true
      ∧ cachedModule destroyedRunner (str "/a.js") none sameFileTransport
          = .error (str "Vite module runner has been destroyed.") :=
  ⟨(cachedModule_throws_iff destroyedRunner (str "/a.js") none sameFileTransport).1.mpr
      (Or.inl rfl),
    (cachedModule_throws_iff destroyedRunner (str "/a.js") none sameFileTransport).2 rfl⟩

theorem cachedModule_id_formula (s : RunnerState) (url : JSString) (importer : Option JSString)
    (transport : JSString → Option JSString → Bool → TransportResponse)
    (hd : s.destroyed = false)
    (hnc : fetchedResponse s (normalizeAbsoluteUrl url s.root) importer transport
        ≠ TransportResponse.cache) :
    cachedModuleId s url importer transport
      = some (ModuleCacheMap.normalize
          (match (fetchedResponse s (normalizeAbsoluteUrl url s.root) importer
              transport).fileOf with
           | some f => f ++ querySuffix (normalizeAbsoluteUrl url s.root)
           | none => normalizeAbsoluteUrl url s.root)) := by
  unfold cachedModuleId cachedModule
  simp only [hd]
  cases hf : fetchedResponse s (normalizeAbsoluteUrl url s.root) importer transport with
  | cache => exact absurd hf hnc
  | externalize t ty inv => rfl
  | inline c f0 inv => cases f0 <;> rfl

/-- C3 (amended): shared identity per file location.  For a fetch result
carrying a file path, the module identity is the file path with the
*first `?`-delimited segment* of the original url's query appended (the
source uses `url.split('?')[1]`, not the whole query string); without a
file path it is the normalized url itself.  Consequently any two requests
whose fetch results carry the same file path and whose urls carry the
same query resolve to the same module identity — and identity keys the
record store, so they share one record and one exports object instance. -/
theorem cachedModule_file_identity (s : RunnerState) (url : JSString)
    (importer : Option JSString)
    (transport : JSString → Option JSString → Bool → TransportResponse)
    (hd : s.destroyed = false)
    (hnc : fetchedResponse s (normalizeAbsoluteUrl url s.root) importer transport
        ≠ TransportResponse.cache) :
    cachedModuleId s url importer transport
      = some (ModuleCacheMap.normalize
          (match (fetchedResponse s (normalizeAbsoluteUrl url s.root) importer
              transport).fileOf with
           | some f => f ++ querySuffix (normalizeAbsoluteUrl url s.root)
           | none => normalizeAbsoluteUrl url s.root))
    ∧ ∀ (s₂ : RunnerState) (url₂ : JSString) (importer₂ : Option JSString)
        (transport₂ : JSString → Option JSString → Bool → TransportResponse) (f : JSString),
        s₂.destroyed = false →
        (fetchedResponse s (normalizeAbsoluteUrl url s.root) importer transport).fileOf
            = some f →
        (fetchedResponse s₂ (normalizeAbsoluteUrl url₂ s₂.root) importer₂ transport₂).fileOf
            = some f →
        querySuffix (normalizeAbsoluteUrl url s.root)
            = querySuffix (normalizeAbsoluteUrl url₂ s₂.root) →
        cachedModuleId s url importer transport
            = cachedModuleId s₂ url₂ importer₂ transport₂ := by
  refine ⟨cachedModule_id_formula s url importer transport hd hnc, ?_⟩
  intro s₂ url₂ importer₂ transport₂ f hd₂ hf₁ hf₂ hq
  have hnc₂ : fetchedResponse s₂ (normalizeAbsoluteUrl url₂ s₂.root) importer₂ transport₂
      ≠ TransportResponse.cache := by
    intro hc
    rw [hc] at hf₂
    exact absurd hf₂ (by simp [TransportResponse.fileOf])
  rw [cachedModule_id_formula s url importer transport hd hnc,
    cachedModule_id_formula s₂ url₂ importer₂ transport₂ hd₂ hnc₂, hf₁, hf₂, hq]

/-- A freshly constructed runner (empty stores and indices). -/
def freshRunner : RunnerState := { root := str "/root/" }

/-- A transport whose fetch result carries the file `/a.js`. -/
def doubleQueryTransport : JSString → Option JSString → Bool → TransportResponse :=
  fun _ _ _ => .inline (some []) (some (str "/a.js")) false

/-- The spec's identity derivation read literally (claim C3): the file
path with the url's *entire* query string appended. -/
def specFileIdFullQuery (file url : JSString) : JSString :=
  file ++ url.dropWhile (fun c => c != '?')

/-- C3 (counterexample): for the url `/a.js?x=1?y=2` resolving to file
`/a.js`, the source derives the identity `/a.js?x=1` — only the segment
up to the second `?` — not the file path with the original url's full
query string appended (`/a.js?x=1?y=2`) as the claim states. -/
theorem cachedModule_id_not_full_query :
    cachedModuleId freshRunner (str "/a.js?x=1?y=2") none doubleQueryTransport
        = some (str "/a.js?x=1")
      ∧ specFileIdFullQuery (str "/a.js") (str "/a.js?x=1?y=2") = str "/a.js?x=1?y=2"
      ∧ cachedModuleId freshRunner (str "/a.js?x=1?y=2") none doubleQueryTransport
          ≠ some (specFileIdFullQuery (str "/a.js") (str "/a.js?x=1?y=2")) := by decide

/-- C3 witness: the extensionless url `/x?v=1` and the url `/x.js?v=1`
both resolve (same file `/x.js`, same query) to the identity
`/x.js?v=1`. -/
theorem cachedModule_file_identity_witness :
    freshRunner.destroyed = false
      ∧ cachedModuleId freshRunner (str "/x?v=1") none sameFileTransport
          = some (str "/x.js?v=1")
      ∧ cachedModuleId freshRunner (str "/x?v=1") none sameFileTransport
          = cachedModuleId freshRunner (str "/x.js?v=1") none sameFileTransport := by
  have h := cachedModule_file_identity freshRunner (str "/x?v=1") none sameFileTransport rfl
    (by decide)
  exact ⟨rfl, h.1.trans (by decide),
    h.2 freshRunner (str "/x.js?v=1") none sameFileTransport (str "/x.js") rfl
      (by decide) (by decide) (by decide)⟩

theorem cachedModule_appends_fileToIdMap (s₀ : RunnerState) (url : JSString)
    (importer : Option JSString)
    (transport : JSString → Option JSString → Bool → TransportResponse) (f : JSString)
    (hd : s₀.destroyed = false)
    (hfile : (fetchedResponse s₀ (normalizeAbsoluteUrl url s₀.root) importer
        transport).fileOf = some f) :
    cachedModuleFileIds s₀ url importer transport f
      = some (some ((jsMapGet s₀.fileToIdMap f).getD []
          ++ [ModuleCacheMap.normalize
                (f ++ querySuffix (normalizeAbsoluteUrl url s₀.root))])) := by
  unfold cachedModuleFileIds cachedModule
  simp only [hd]
  cases hf : fetchedResponse s₀ (normalizeAbsoluteUrl url s₀.root) importer transport with
  | cache =>
    rw [hf] at hfile
    exact absurd hfile (by simp [TransportResponse.fileOf])
  | externalize t ty inv =>
    rw [hf] at hfile
    exact absurd hfile (by simp [TransportResponse.fileOf])
  | inline c f0 inv =>
    rw [hf] at hfile
    simp only [TransportResponse.fileOf] at hfile
    subst hfile
    simp [TransportResponse.fileOf, jsMapGet_jsMapSet_self]

/-- C10: `clearCache()` empties the module record store, clears every
URL-to-identity mapping and the HMR listeners, but leaves the
file-location index untouched — and `destroy()`, which calls it, leaves
it untouched too.  A resolution performed after the clear appends the new
identity to the *surviving* per-file list. -/
theorem clearCache_frame (s : RunnerState) :
    (clearCache s).fileToIdMap = s.fileToIdMap
      ∧ (clearCache s).urlToIdMap = []
      ∧ (clearCache s).moduleCache = (fun _ => ({} : ModuleCache))
      ∧ (clearCache s).hmrListeners = []
      ∧ (destroy s).fileToIdMap = s.fileToIdMap
      ∧ (destroy s).destroyed = true
      ∧ (∀ (url : JSString) (importer : Option JSString)
          (transport : JSString → Option JSString → Bool → TransportResponse) (f : JSString),
          s.destroyed = false →
          (fetchedResponse (clearCache s) (normalizeAbsoluteUrl url s.root) importer
              transport).fileOf = some f →
          cachedModuleFileIds (clearCache s) url importer transport f
            = some (some ((jsMapGet s.fileToIdMap f).getD []
                ++ [ModuleCacheMap.normalize
                      (f ++ querySuffix (normalizeAbsoluteUrl url s.root))]))) := by
  refine ⟨rfl, rfl, rfl, rfl, rfl, rfl, ?_⟩
  intro url importer transport f hd hfile
  exact cachedModule_appends_fileToIdMap (clearCache s) url importer transport f hd hfile

/-- A runner that has already accumulated a per-file identity list for
`/x.js`. -/
def seededRunner : RunnerState :=
  { root := str "/root/", fileToIdMap := [(str "/x.js", [str "/x.js?old"])] }

/-- C10 witness: after `clearCache`, the `/x.js` entry survives and a
resolution hitting that file appends the new identity to the surviving
list. -/
theorem clearCache_frame_witness :
    (clearCache seededRunner).fileToIdMap = [(str "/x.js", [str "/x.js?old"])]
      ∧ seededRunner.destroyed = false
      ∧ cachedModuleFileIds (clearCache seededRunner) (str "/x?v=1") none sameFileTransport
          (str "/x.js")
        = some (some [str "/x.js?old", str "/x.js?v=1"]) := by
  have h := clearCache_frame seededRunner
  refine ⟨h.1, rfl, ?_⟩
  have h7 := h.2.2.2.2.2.2 (str "/x?v=1") none sameFileTransport (str "/x.js") rfl (by decide)
  rw [h7]
  decide
